import Mathlib

/-!
Verification of the timetable engine of the QWERTY ERP repository
(`mcp_server/src/tools/timetable.py` together with its validators in
`mcp_server/src/utils/validators.py` and formatters in
`mcp_server/src/utils/formatters.py`).

The Python module manipulates MongoDB documents of the shape
`{dayOfWeek: str, slots: [{period, startTime, endTime, type, courseCode,
facultyId, room}], createdAt, updatedAt}` stored in the `timetables`
collection.  The shallow embedding below models:

* an `HH:MM` time-of-day value as a `TimeHM` record (hour, minute); the
  Python code compares `datetime.time` values, which order
  lexicographically by (hour, minute) — mirrored by `TimeHM.ltB`;
* the `timetables` collection as a `List DaySchedule` in insertion
  order (`find_one` returns the first match, `update_one` updates the
  first match, `insert_one` appends);
* optional request arguments as `Option` values.  A supplied argument is
  `some v`; Python's truthiness test on a non-empty string agrees with
  `Option.isSome` on this encoding (the empty-string argument, which is
  falsy in Python yet distinct from `None`, is not representable; no
  claim depends on it);
* `createdAt` / `updatedAt` timestamps are omitted: no claim mentions
  them, and `format_timetable_data` passes `slots` through unchanged.

MongoDB sorts string keys bytewise; on the lowercase ASCII day names this
is the character-by-character comparison `charListLt` / `charListLe`.
-/

/-- An `HH:MM` time of day, the result of `datetime.strptime(s, "%H:%M").time()`. -/
structure TimeHM where
  hour : Nat
  minute : Nat
deriving DecidableEq

/-- One entry of a day's `slots` array, as built by `create_timetable_slot`. -/
structure Slot where
  period : Int
  startTime : TimeHM
  endTime : TimeHM
  type : String
  courseCode : Option String
  facultyId : Option String
  room : Option String
deriving DecidableEq

/-- Python `datetime.time` comparison is lexicographic on (hour, minute). -/
def TimeHM.ltB (a b : TimeHM) : Bool :=
  a.hour < b.hour || (a.hour == b.hour && a.minute < b.minute)

/-- `validate_time_format`: the regex `^([0-1]?[0-9]|2[0-3]):[0-5][0-9]$`
accepts exactly the strings denoting hour < 24 and minute < 60. -/
def validTime (t : TimeHM) : Bool := t.hour < 24 && t.minute < 60

/-- Python `str.lower()` (the day names handled here are pure ASCII). -/
def pyLower (s : String) : String := ⟨s.data.map Char.toLower⟩

/-- The `valid_days` list of `validate_day_of_week` (seven days). -/
def validDays : List String :=
  ["monday", "tuesday", "wednesday", "thursday", "friday", "saturday", "sunday"]

/-- `validate_day_of_week`: `day.lower() in valid_days`. -/
def validate_day_of_week (day : String) : Bool := validDays.contains (pyLower day)

/-- `validate_object_id`: `ObjectId(s)` succeeds on a 24-character hex string. -/
def validate_object_id (s : String) : Bool :=
  s.length == 24 && s.data.all fun c =>
    c.isDigit || ('a' ≤ c && c ≤ 'f') || ('A' ≤ c && c ≤ 'F')

/-- The six-element `all_days` list hard-coded in `check_room_availability`
and in `get_free_periods` (note: no `"sunday"`). -/
def allDays6 : List String :=
  ["monday", "tuesday", "wednesday", "thursday", "friday", "saturday"]

/-- `range(1, 9)`: the fixed period numbers scanned by the availability and
free-period searches. -/
def periodRange : List Int := [1, 2, 3, 4, 5, 6, 7, 8]

/-- Position of a day name in the monday-first week, used to state weekday
order (the order the spec asserts for faculty schedules). -/
def weekdayIndex (day : String) : Nat := validDays.indexOf day

/-- One document of the `timetables` collection: a weekday label plus its
`slots` array (timestamps omitted, see the header note). -/
structure DaySchedule where
  dayOfWeek : String
  slots : List Slot
deriving DecidableEq

/-- `find_one("timetables", {"dayOfWeek": d})`: first document whose
`dayOfWeek` equals `d`, in collection order. -/
def findDay (d : String) : List DaySchedule → Option DaySchedule
  | [] => none
  | tt :: rest => if tt.dayOfWeek == d then some tt else findDay d rest

/-- `update_one("timetables", {...}, ...)` applied to the document that
`findDay` located: rewrite the first document whose `dayOfWeek` equals `d`. -/
def updateFirstDay (d : String) (f : DaySchedule → DaySchedule) :
    List DaySchedule → List DaySchedule
  | [] => []
  | tt :: rest =>
    if tt.dayOfWeek == d then f tt :: rest else tt :: updateFirstDay d f rest

/-- The `for i, slot in enumerate(timetable["slots"])` scan of
`update_timetable_slot` / `delete_timetable_slot`: index of the first slot
whose `period` equals the argument. -/
def findSlotIdx (period : Int) : List Slot → Option Nat
  | [] => none
  | s :: rest =>
    if s.period == period then some 0 else (findSlotIdx period rest).map (· + 1)

/-- MongoDB `$set {slots.i.field: v}`: rewrite the slot at index `i`. -/
def applyUpdateAt (i : Nat) (f : Slot → Slot) : List Slot → List Slot
  | [] => []
  | s :: rest =>
    match i with
    | 0 => f s :: rest
    | j + 1 => s :: applyUpdateAt j f rest

/-- The error outcomes the timetable tools report through
`format_error_response` (identified by their messages in the source). -/
inductive TTError where
  | invalidDay
  | invalidTimeFormat
  | invalidTimeRange
  | scheduleNotFound
  | slotNotFound
  | noUpdateData
  | invalidObjectId
  | facultyNotFound
deriving DecidableEq

/-- `create_timetable_slot(day_of_week, period, start_time, end_time,
slot_type, course_code, faculty_id, room)`.  Returns the reported error (if
any) together with the collection after the call; every error path in the
source returns before any write, so those branches keep `db` unchanged. -/
def create_timetable_slot (db : List DaySchedule) (day_of_week : String)
    (period : Int) (start_time end_time : TimeHM) (slot_type : String)
    (course_code faculty_id room : Option String) :
    Option TTError × List DaySchedule :=
  if !validate_day_of_week day_of_week then (some .invalidDay, db)
  else if !validTime start_time then (some .invalidTimeFormat, db)
  else if !validTime end_time then (some .invalidTimeFormat, db)
  else if !TimeHM.ltB start_time end_time then (some .invalidTimeRange, db)
  else
    let newSlot : Slot :=
      { period := period, startTime := start_time, endTime := end_time,
        type := slot_type, courseCode := course_code,
        facultyId := faculty_id, room := room }
    match findDay (pyLower day_of_week) db with
    | some _ =>
      (none, updateFirstDay (pyLower day_of_week)
        (fun tt => { tt with slots := tt.slots ++ [newSlot] }) db)
    | none =>
      (none, db ++ [{ dayOfWeek := pyLower day_of_week, slots := [newSlot] }])

/-- Field merge performed by the `$set {slots.i.*}` update document of
`update_timetable_slot`: each argument that was supplied overwrites the
corresponding stored field, the rest are untouched. -/
def mergeSlot (s : Slot) (start_time end_time : Option TimeHM)
    (slot_type course_code faculty_id room : Option String) : Slot :=
  { s with
    startTime := start_time.getD s.startTime,
    endTime := end_time.getD s.endTime,
    type := slot_type.getD s.type,
    courseCode := match course_code with | some c => some c | none => s.courseCode,
    facultyId := match faculty_id with | some f => some f | none => s.facultyId,
    room := match room with | some r => some r | none => s.room }

/-- `update_timetable_slot(day_of_week, period, ...)`.  Time formats are
checked only for supplied arguments, and the start < end comparison runs
only when both times are supplied in the same call. -/
def update_timetable_slot (db : List DaySchedule) (day_of_week : String)
    (period : Int) (start_time end_time : Option TimeHM)
    (slot_type course_code faculty_id room : Option String) :
    Option TTError × List DaySchedule :=
  if !validate_day_of_week day_of_week then (some .invalidDay, db)
  else if start_time.any (fun t => !validTime t) then (some .invalidTimeFormat, db)
  else if end_time.any (fun t => !validTime t) then (some .invalidTimeFormat, db)
  else if (match start_time, end_time with
           | some s, some e => !TimeHM.ltB s e
           | _, _ => false) then (some .invalidTimeRange, db)
  else
    match findDay (pyLower day_of_week) db with
    | none => (some .scheduleNotFound, db)
    | some tt =>
      match findSlotIdx period tt.slots with
      | none => (some .slotNotFound, db)
      | some i =>
        if start_time.isNone && end_time.isNone && slot_type.isNone &&
           course_code.isNone && faculty_id.isNone && room.isNone then
          (some .noUpdateData, db)
        else
          (none, updateFirstDay (pyLower day_of_week)
            (fun _ => { tt with slots := (applyUpdateAt i
              (fun s => mergeSlot s start_time end_time slot_type
                course_code faculty_id room) tt.slots) }) db)

/-- `delete_timetable_slot(day_of_week, period)`: the `$unset slots.i`
followed by `$pull slots None` removes exactly the element at index `i`. -/
def delete_timetable_slot (db : List DaySchedule) (day_of_week : String)
    (period : Int) : Option TTError × List DaySchedule :=
  if !validate_day_of_week day_of_week then (some .invalidDay, db)
  else
    match findDay (pyLower day_of_week) db with
    | none => (some .scheduleNotFound, db)
    | some tt =>
      match findSlotIdx period tt.slots with
      | none => (some .slotNotFound, db)
      | some i =>
        (none, updateFirstDay (pyLower day_of_week)
          (fun _ => { tt with slots := tt.slots.eraseIdx i }) db)

/-- `get_timetable_by_day(day_of_week)`: validate the day, then return the
first matching document (`format_timetable_data` passes `slots` through). -/
def get_timetable_by_day (db : List DaySchedule) (day_of_week : String) :
    Except TTError DaySchedule :=
  if !validate_day_of_week day_of_week then .error .invalidDay
  else
    match findDay (pyLower day_of_week) db with
    | none => .error .scheduleNotFound
    | some tt => .ok tt

/-- Bytewise (BSON) strict comparison of strings, as `$sort` compares the
lowercase ASCII `dayOfWeek` values; also the string part of the Python
tuple key `(x["dayOfWeek"], x["period"])`. -/
def charListLt : List Char → List Char → Bool
  | [], [] => false
  | [], _ :: _ => true
  | _ :: _, [] => false
  | a :: as, b :: bs => if a < b then true else if b < a then false else charListLt as bs

/-- Reflexive closure of `charListLt`, used as the merge-sort predicate. -/
def charListLe : List Char → List Char → Bool
  | [], _ => true
  | _ :: _, [] => false
  | a :: as, b :: bs => if a < b then true else if b < a then false else charListLe as bs

/-- Document comparison of the `{"$sort": {"dayOfWeek": 1}}` stage.  The
stage is modelled with the stable `List.insertionSort`; MongoDB's sort on
a single string key is determined up to ties, and ties (equal `dayOfWeek`)
cannot arise on distinct weekday documents. -/
def dayLeR (a b : DaySchedule) : Prop :=
  charListLe a.dayOfWeek.data b.dayOfWeek.data = true

instance : DecidableRel dayLeR := fun a b =>
  inferInstanceAs (Decidable (charListLe a.dayOfWeek.data b.dayOfWeek.data = true))

instance {ε α : Type} [DecidableEq ε] [DecidableEq α] : DecidableEq (Except ε α)
  | .error e, .error f => decidable_of_iff (e = f) (by simp)
  | .error _, .ok _ => isFalse (by simp)
  | .ok _, .error _ => isFalse (by simp)
  | .ok x, .ok y => decidable_of_iff (x = y) (by simp)

/-- The slots of one day that the `$match {"slots.facultyId": fid}` stage
keeps after `$unwind`, in stored array order. -/
def slotsForFaculty (fid : String) (slots : List Slot) : List Slot :=
  slots.filter (fun s => s.facultyId == some fid)

/-- `get_faculty_schedule(faculty_id)`: validate the id, check the faculty
exists (`faculties` is the set of ids in the `faculties` collection), then
run the `$unwind` / `$match` / `$group` / `$sort` pipeline.  The `$group`
stage (keyed by document `_id`) reassembles each day's matching slots in
stored order, dropping days with no match, and `$sort` orders the resulting
documents by the `dayOfWeek` string. -/
def get_faculty_schedule (faculties : List String) (db : List DaySchedule)
    (faculty_id : String) : Except TTError (List DaySchedule) :=
  if !validate_object_id faculty_id then .error .invalidObjectId
  else if !faculties.contains faculty_id then .error .facultyNotFound
  else
    .ok (List.insertionSort dayLeR
      (db.filterMap (fun tt =>
        let ms := slotsForFaculty faculty_id tt.slots
        if ms.isEmpty then none else some { tt with slots := ms })))

/-- The per-slot record `slot_info` built by `check_room_availability`
(all slot fields except `room`, tagged with the day). -/
structure ConflictInfo where
  dayOfWeek : String
  period : Int
  startTime : TimeHM
  endTime : TimeHM
  type : String
  courseCode : Option String
  facultyId : Option String
deriving DecidableEq

/-- Construction of `slot_info` from a stored slot. -/
def slotInfo (day : String) (s : Slot) : ConflictInfo :=
  { dayOfWeek := day, period := s.period, startTime := s.startTime,
    endTime := s.endTime, type := s.type, courseCode := s.courseCode,
    facultyId := s.facultyId }

/-- One element of the `available_slots` list of `check_room_availability`. -/
structure AvailableEntry where
  dayOfWeek : String
  period : Int
  status : String
deriving DecidableEq

/-- The `availability_info` payload of `check_room_availability`. -/
structure RoomAvailability where
  room : String
  conflicts : List ConflictInfo
  available_slots : List AvailableEntry
  total_conflicts : Nat
  total_available : Nat
deriving DecidableEq

/-- The `find_many` query of `check_room_availability`:
`{"slots.room": room}` (some array element has `room` equal to the
argument) plus `{"dayOfWeek": day.lower()}` when a valid day was given. -/
def roomQuery (db : List DaySchedule) (room : String)
    (day_of_week : Option String) : List DaySchedule :=
  db.filter (fun tt =>
    tt.slots.any (fun s => s.room == some room) &&
    (match day_of_week with
     | some d => if validate_day_of_week d then tt.dayOfWeek == pyLower d else true
     | none => true))

/-- The conflict test of `check_room_availability`: with both window bounds
supplied, `check_start < slot_end and check_end > slot_start`; otherwise
every slot of the room is a conflict. -/
def overlapCheck (start_time end_time : Option TimeHM) (s : Slot) : Bool :=
  match start_time, end_time with
  | some cs, some ce => TimeHM.ltB cs s.endTime && TimeHM.ltB s.startTime ce
  | _, _ => true

/-- The body of the available-slot search of `check_room_availability` for
one day of `all_days`: skipped when a different day was requested; the
occupied periods come from the first queried document for that day. -/
def dayAvailableEntries (timetables : List DaySchedule) (room : String)
    (day_of_week : Option String) (day : String) : List AvailableEntry :=
  if day_of_week.any (fun d => !(day == pyLower d)) then []
  else
    let occupied : List Int :=
      match findDay day timetables with
      | some tt => (tt.slots.filter (fun s => s.room == some room)).map (·.period)
      | none => []
    periodRange.filterMap (fun p =>
      if occupied.contains p then none
      else some { dayOfWeek := day, period := p, status := "available" })

/-- `check_room_availability(room, day_of_week, start_time, end_time)`.
Conflicts are collected from the queried documents; the available-period
search runs only when at least one window bound is missing
(`if not start_time or not end_time`). -/
def check_room_availability (db : List DaySchedule) (room : String)
    (day_of_week : Option String) (start_time end_time : Option TimeHM) :
    RoomAvailability :=
  let timetables := roomQuery db room day_of_week
  let conflicts := timetables.flatMap (fun tt =>
    (tt.slots.filter (fun s =>
      s.room == some room && overlapCheck start_time end_time s)).map
      (slotInfo tt.dayOfWeek))
  let available_slots :=
    if start_time.isNone || end_time.isNone then
      allDays6.flatMap (dayAvailableEntries timetables room day_of_week)
    else []
  { room := room, conflicts := conflicts, available_slots := available_slots,
    total_conflicts := conflicts.length,
    total_available := available_slots.length }

/-- One element of the `free_periods` list of `get_free_periods`. -/
structure FreePeriod where
  dayOfWeek : String
  period : Int
  startTime : String
  endTime : String
  status : String
deriving DecidableEq

/-- The naive derived display time `f"{h}:00"` used for free periods. -/
def freeTimeStr (h : Int) : String := toString h ++ ":00"

/-- The per-slot occupancy test of `get_free_periods`: a `facultyId` match
when a faculty filter is supplied; otherwise a `room` match when a room
filter is supplied; otherwise, with no filter at all, any slot occupies its
period. -/
def slotOccupies (faculty_id room : Option String) (s : Slot) : Bool :=
  if faculty_id.any (fun f => s.facultyId == some f) then true
  else if room.any (fun r => s.room == some r) then true
  else faculty_id.isNone && room.isNone

/-- The `days_to_check` list of `get_free_periods`: the one given day
(lower-cased) or the hard-coded six-day list. -/
def daysInScope (day_of_week : Option String) : List String :=
  match day_of_week with
  | some d => [pyLower d]
  | none => allDays6

/-- The loop body of `get_free_periods` for one day of `days_to_check`:
with no document for the day, all periods of `range(1, 9)` are emitted as
`"completely_free"`; otherwise the periods of the first document's
occupying slots are removed and the rest emitted as `"free"`.  Either way
the displayed times are the derived `{8+p}:00` / `{9+p}:00` placeholders. -/
def dayFreeEntries (timetables : List DaySchedule)
    (day_of_week faculty_id room : Option String) (day : String) :
    List FreePeriod :=
  if day_of_week.any (fun d => !(day == pyLower d)) then []
  else
    match findDay day timetables with
    | none =>
      periodRange.map (fun p =>
        { dayOfWeek := day, period := p, startTime := freeTimeStr (8 + p),
          endTime := freeTimeStr (9 + p), status := "completely_free" })
    | some tt =>
      let occupied := (tt.slots.filter (slotOccupies faculty_id room)).map (·.period)
      periodRange.filterMap (fun p =>
        if occupied.contains p then none
        else some { dayOfWeek := day, period := p,
                    startTime := freeTimeStr (8 + p),
                    endTime := freeTimeStr (9 + p), status := "free" })

/-- The Python sort key `(x["dayOfWeek"], x["period"])` compared as a
tuple; `list.sort` is stable, as is the insertion sort used to model it. -/
def fpLeR (a b : FreePeriod) : Prop :=
  (charListLt a.dayOfWeek.data b.dayOfWeek.data ||
    (a.dayOfWeek == b.dayOfWeek && a.period ≤ b.period)) = true

instance : DecidableRel fpLeR := fun a b =>
  inferInstanceAs (Decidable ((charListLt a.dayOfWeek.data b.dayOfWeek.data ||
    (a.dayOfWeek == b.dayOfWeek && a.period ≤ b.period)) = true))

/-- The `find_many` query of `get_free_periods`: all documents, or the
documents of the requested day when a valid day was given. -/
def freeQuery (db : List DaySchedule) (day_of_week : Option String) :
    List DaySchedule :=
  db.filter (fun tt =>
    match day_of_week with
    | some d => if validate_day_of_week d then tt.dayOfWeek == pyLower d else true
    | none => true)

/-- `get_free_periods(day_of_week, faculty_id, room)`: filter the
collection by the day (when a valid one is given), emit the per-day free
periods, and sort them by day name and period number. -/
def get_free_periods (db : List DaySchedule)
    (day_of_week faculty_id room : Option String) : List FreePeriod :=
  List.insertionSort fpLeR
    ((daysInScope day_of_week).flatMap
      (dayFreeEntries (freeQuery db day_of_week) day_of_week faculty_id room))

/-! ### Helper lemmas about the embedding -/

theorem charListLe_nil (bs : List Char) : charListLe [] bs = true := by
  cases bs <;> rfl

theorem charListLe_total : ∀ as bs : List Char,
    charListLe as bs = true ∨ charListLe bs as = true
  | [], bs => Or.inl (charListLe_nil bs)
  | _ :: _, [] => Or.inr (charListLe_nil _)
  | a :: as, b :: bs => by
    rcases lt_trichotomy a b with h | h | h
    · exact Or.inl (by simp [charListLe, h])
    · subst h
      rcases charListLe_total as bs with ih | ih
      · exact Or.inl (by simp [charListLe, lt_irrefl, ih])
      · exact Or.inr (by simp [charListLe, lt_irrefl, ih])
    · exact Or.inr (by simp [charListLe, h])

theorem charListLe_trans : ∀ as bs cs : List Char, charListLe as bs = true →
    charListLe bs cs = true → charListLe as cs = true := by
  intro as
  induction as with
  | nil => intro bs cs _ _; exact charListLe_nil cs
  | cons a as ih =>
    intro bs cs h1 h2
    cases bs with
    | nil => simp [charListLe] at h1
    | cons b bs =>
      cases cs with
      | nil => simp [charListLe] at h2
      | cons c cs =>
        by_cases hab : a < b
        · by_cases hbc : b < c
          · simp [charListLe, lt_trans hab hbc]
          · by_cases hcb : c < b
            · simp [charListLe, hbc, hcb] at h2
            · have hbc2 : b = c := le_antisymm (not_lt.mp hcb) (not_lt.mp hbc)
              subst hbc2
              simp [charListLe, hab]
        · by_cases hba : b < a
          · simp [charListLe, hab, hba] at h1
          · have hab2 : a = b := le_antisymm (not_lt.mp hba) (not_lt.mp hab)
            subst hab2
            simp only [charListLe, lt_irrefl, if_neg (lt_irrefl a)] at h1
            by_cases hac : a < c
            · simp [charListLe, hac]
            · by_cases hca : c < a
              · simp [charListLe, hac, hca] at h2
              · have hac2 : a = c := le_antisymm (not_lt.mp hca) (not_lt.mp hac)
                subst hac2
                simp only [charListLe, lt_irrefl, if_neg (lt_irrefl a)] at h2 ⊢
                exact ih bs cs h1 h2

instance : IsTotal DaySchedule dayLeR :=
  ⟨fun a b => charListLe_total a.dayOfWeek.data b.dayOfWeek.data⟩

instance : IsTrans DaySchedule dayLeR :=
  ⟨fun a b c => charListLe_trans a.dayOfWeek.data b.dayOfWeek.data c.dayOfWeek.data⟩

theorem findDay_mem {d : String} {db : List DaySchedule} {tt : DaySchedule}
    (h : findDay d db = some tt) : tt ∈ db ∧ tt.dayOfWeek = d := by
  induction db with
  | nil => simp [findDay] at h
  | cons hd rest ih =>
    by_cases hh : hd.dayOfWeek == d
    · simp only [findDay, if_pos hh] at h
      cases h
      exact ⟨List.mem_cons_self .., eq_of_beq hh⟩
    · simp only [findDay, if_neg hh] at h
      rcases ih h with ⟨h1, h2⟩
      exact ⟨List.mem_cons_of_mem _ h1, h2⟩

theorem findDay_updateFirstDay (d : String) (f : DaySchedule → DaySchedule)
    (db : List DaySchedule) (hf : ∀ tt, tt.dayOfWeek = d → (f tt).dayOfWeek = d) :
    findDay d (updateFirstDay d f db) = (findDay d db).map f := by
  induction db with
  | nil => rfl
  | cons hd rest ih =>
    by_cases hh : hd.dayOfWeek == d
    · have : (f hd).dayOfWeek == d := beq_iff_eq.mpr (hf hd (eq_of_beq hh))
      simp [updateFirstDay, findDay, hh, this]
    · simp [updateFirstDay, findDay, hh, ih]

theorem findDay_append (d : String) (db1 db2 : List DaySchedule) :
    findDay d (db1 ++ db2) = (findDay d db1).or (findDay d db2) := by
  induction db1 with
  | nil => rfl
  | cons hd rest ih =>
    by_cases hh : hd.dayOfWeek == d
    · simp [findDay, hh]
    · simp [findDay, hh, ih]

theorem findSlotIdx_eq_none {p : Int} {slots : List Slot} :
    findSlotIdx p slots = none ↔ ∀ s ∈ slots, s.period ≠ p := by
  induction slots with
  | nil => simp [findSlotIdx]
  | cons s rest ih =>
    by_cases hh : s.period == p
    · simp [findSlotIdx, hh, eq_of_beq hh]
    · have hne : s.period ≠ p := fun hc => hh (beq_iff_eq.mpr hc)
      simp [findSlotIdx, hh, Option.map_eq_none', ih, hne]

theorem findSlotIdx_append_none {p : Int} {l1 l2 : List Slot}
    (h : findSlotIdx p l1 = none) :
    findSlotIdx p (l1 ++ l2) = (findSlotIdx p l2).map (· + l1.length) := by
  induction l1 with
  | nil => cases hfs : findSlotIdx p l2 <;> simp [hfs]
  | cons s rest ih =>
    by_cases hh : s.period == p
    · simp [findSlotIdx, hh] at h
    · simp only [findSlotIdx, if_neg hh, Option.map_eq_none'] at h
      rw [List.cons_append]
      show (if s.period == p then some 0
        else (findSlotIdx p (rest ++ l2)).map (· + 1)) = _
      rw [if_neg hh, ih h, Option.map_map]
      cases hfs : findSlotIdx p l2 with
      | none => rfl
      | some v => simp [Function.comp, List.length_cons, Nat.add_assoc]

theorem applyUpdateAt_append (l1 : List Slot) (b : Slot) (f : Slot → Slot) :
    applyUpdateAt l1.length f (l1 ++ [b]) = l1 ++ [f b] := by
  induction l1 with
  | nil => rfl
  | cons s rest ih => simp [applyUpdateAt, ih]

theorem mem_get_free_periods {db : List DaySchedule}
    {day_of_week faculty_id room : Option String} {fp : FreePeriod} :
    fp ∈ get_free_periods db day_of_week faculty_id room ↔
      ∃ day ∈ daysInScope day_of_week,
        fp ∈ dayFreeEntries (freeQuery db day_of_week) day_of_week
          faculty_id room day := by
  unfold get_free_periods
  rw [List.mem_insertionSort, List.mem_flatMap]

/-! ### Example states shared by several witnesses -/

/-- A valid monday class slot, period 1, 09:00-10:00. -/
def exSlot1 : Slot :=
  { period := 1, startTime := ⟨9, 0⟩, endTime := ⟨10, 0⟩, type := "class",
    courseCode := none, facultyId := none, room := none }

/-- A collection holding only monday with `exSlot1`. -/
def exDb1 : List DaySchedule := [{ dayOfWeek := "monday", slots := [exSlot1] }]

/-! ### Claim theorems -/

/-- Claim C10: `update_timetable_slot` validates `startTime < endTime` only
when both time fields are supplied in one call.  Concretely: on a monday
slot stored as 09:00-10:00, an update supplying only `end_time = 08:00`
(a valid HH:MM value) succeeds and leaves the stored slot with
startTime ≥ endTime, breaking the slot time-order invariant. -/
theorem C10_one_sided_time_update_breaks_order :
    validTime ⟨8, 0⟩ = true ∧
    update_timetable_slot exDb1 "monday" 1 none (some ⟨8, 0⟩)
        none none none none =
      (none, [{ dayOfWeek := "monday",
                slots := [{ period := 1, startTime := ⟨9, 0⟩,
                            endTime := ⟨8, 0⟩, type := "class",
                            courseCode := none, facultyId := none,
                            room := none }] }]) ∧
    TimeHM.ltB ⟨9, 0⟩ ⟨8, 0⟩ = false := by decide

/-- Claim C2: when the day already holds a slot with the requested period,
`create_timetable_slot` with a valid day and valid ordered times does not
reject the call: it succeeds and the day's stored slot list becomes the old
list with the duplicate-period slot appended at the end. -/
theorem C2_duplicate_period_append (db : List DaySchedule) (day : String)
    (period : Int) (st et : TimeHM) (ty : String) (cc fid rm : Option String)
    (tt : DaySchedule)
    (hday : validate_day_of_week day = true)
    (hst : validTime st = true) (het : validTime et = true)
    (hlt : TimeHM.ltB st et = true)
    (hfind : findDay (pyLower day) db = some tt)
    (hdup : ∃ s ∈ tt.slots, s.period = period) :
    (create_timetable_slot db day period st et ty cc fid rm).1 = none ∧
    findDay (pyLower day) (create_timetable_slot db day period st et ty cc fid rm).2 =
      some { tt with slots := tt.slots ++
        [{ period := period, startTime := st, endTime := et, type := ty,
           courseCode := cc, facultyId := fid, room := rm }] } := by
  clear hdup
  unfold create_timetable_slot
  simp only [hday, hst, het, hlt, Bool.not_true, Bool.false_eq_true,
    if_false, hfind]
  refine ⟨by trivial, ?_⟩
  rw [findDay_updateFirstDay (pyLower day)
    (fun t => { t with slots := t.slots ++
      [{ period := period, startTime := st, endTime := et, type := ty,
         courseCode := cc, facultyId := fid, room := rm }] })
    db (fun t h => h), hfind]
  rfl

/-- Witness for C2 at a concrete state: monday already holds a period-1
slot and a second period-1 slot is created. -/
theorem C2_witness :
    (create_timetable_slot exDb1 "monday" 1 ⟨10, 0⟩ ⟨11, 0⟩ "lab"
        none none none).1 = none ∧
    findDay (pyLower "monday")
        (create_timetable_slot exDb1 "monday" 1 ⟨10, 0⟩ ⟨11, 0⟩ "lab"
          none none none).2 =
      some { dayOfWeek := "monday", slots := [exSlot1,
        { period := 1, startTime := ⟨10, 0⟩, endTime := ⟨11, 0⟩, type := "lab",
          courseCode := none, facultyId := none, room := none }] } :=
  C2_duplicate_period_append exDb1 "monday" 1 ⟨10, 0⟩ ⟨11, 0⟩ "lab"
    none none none { dayOfWeek := "monday", slots := [exSlot1] }
    (by decide) (by decide) (by decide) (by decide) (by decide)
    ⟨exSlot1, by decide, rfl⟩

/-- Claim C3: with a valid day whose schedule exists but holds no slot at
the requested period, `update_timetable_slot` (with otherwise valid
arguments) and `delete_timetable_slot` both report the slot-not-found
error, and the collection is returned unchanged — the error is raised
before any write. -/
theorem C3_missing_slot_errors (db : List DaySchedule) (day : String)
    (period : Int) (st et : Option TimeHM) (ty cc fid rm : Option String)
    (tt : DaySchedule)
    (hday : validate_day_of_week day = true)
    (hfind : findDay (pyLower day) db = some tt)
    (hmiss : ∀ s ∈ tt.slots, s.period ≠ period)
    (hstv : ∀ t, st = some t → validTime t = true)
    (hetv : ∀ t, et = some t → validTime t = true)
    (hrange : ∀ a b, st = some a → et = some b → TimeHM.ltB a b = true) :
    update_timetable_slot db day period st et ty cc fid rm =
        (some TTError.slotNotFound, db) ∧
      delete_timetable_slot db day period = (some TTError.slotNotFound, db) := by
  have hidx : findSlotIdx period tt.slots = none := findSlotIdx_eq_none.mpr hmiss
  have hdel : delete_timetable_slot db day period =
      (some TTError.slotNotFound, db) := by
    unfold delete_timetable_slot
    simp [hday, hfind, hidx]
  refine ⟨?_, hdel⟩
  unfold update_timetable_slot
  cases st with
  | none =>
    cases et with
    | none => simp [hday, hfind, hidx]
    | some b => simp [hday, hetv b rfl, hfind, hidx]
  | some a =>
    cases et with
    | none => simp [hday, hstv a rfl, hfind, hidx]
    | some b =>
      simp [hday, hstv a rfl, hetv b rfl, hrange a b rfl rfl, hfind, hidx]

/-- Witness for C3: monday exists with only a period-1 slot; updating or
deleting period 2 fails with the slot-not-found error and leaves the
collection unchanged. -/
theorem C3_witness :
    update_timetable_slot exDb1 "monday" 2 none none none none none
        (some "R9") = (some TTError.slotNotFound, exDb1) ∧
      delete_timetable_slot exDb1 "monday" 2 = (some TTError.slotNotFound, exDb1) :=
  C3_missing_slot_errors exDb1 "monday" 2 none none none none none
    (some "R9") { dayOfWeek := "monday", slots := [exSlot1] }
    (by decide) (by decide) (by decide)
    (fun t h => by cases h) (fun t h => by cases h)
    (fun a b h1 h2 => by cases h1)

/-- Claim C1: with both window bounds supplied, a slot of the queried room
is reported as a conflict by `check_room_availability` exactly when the
window overlaps the slot as a half-open interval
(`windowStart < slotEnd` and `windowEnd > slotStart`); a window that
merely touches a slot boundary is not a conflict. -/
theorem C1_window_conflict_iff (db : List DaySchedule) (room : String)
    (day_of_week : Option String) (cs ce : TimeHM) (tt : DaySchedule)
    (s : Slot) (htt : tt ∈ roomQuery db room day_of_week) (hs : s ∈ tt.slots)
    (hroom : s.room = some room) :
    slotInfo tt.dayOfWeek s ∈
        (check_room_availability db room day_of_week
          (some cs) (some ce)).conflicts ↔
      (TimeHM.ltB cs s.endTime = true ∧ TimeHM.ltB s.startTime ce = true) := by
  unfold check_room_availability
  simp only [List.mem_flatMap, List.mem_map, List.mem_filter]
  constructor
  · rintro ⟨tt2, htt2, s2, ⟨hs2, hcond⟩, hinfo⟩
    simp only [Bool.and_eq_true, beq_iff_eq] at hcond
    rcases hcond with ⟨hroom2, hover⟩
    have hst : s2 = s := by
      cases s2
      cases s
      simp only [slotInfo, ConflictInfo.mk.injEq] at hinfo
      simp only [Slot.mk.injEq]
      simp only at hroom2 hroom
      exact ⟨hinfo.2.1, hinfo.2.2.1, hinfo.2.2.2.1, hinfo.2.2.2.2.1,
        hinfo.2.2.2.2.2.1, hinfo.2.2.2.2.2.2, hroom2.trans hroom.symm⟩
    subst hst
    simpa [overlapCheck, Bool.and_eq_true] using hover
  · rintro ⟨h1, h2⟩
    exact ⟨tt, htt, s, ⟨hs, by simp [hroom, overlapCheck, h1, h2]⟩, rfl⟩

/-- Room Lab1 booked monday period 2, 10:00-11:00 (the spec scenario). -/
def labSlot : Slot :=
  { period := 2, startTime := ⟨10, 0⟩, endTime := ⟨11, 0⟩, type := "class",
    courseCode := none, facultyId := none, room := some "Lab1" }

/-- The collection holding only the Lab1 monday booking. -/
def labDb : List DaySchedule := [{ dayOfWeek := "monday", slots := [labSlot] }]

/-- Witness for C1 on the spec scenario: room Lab1 booked monday period 2,
10:00-11:00; the 10:30-11:30 window overlaps it, the 11:00-12:00 window
only touches the boundary and does not. -/
theorem C1_witness :
    (slotInfo "monday" labSlot ∈
      (check_room_availability labDb "Lab1" (some "monday")
        (some ⟨10, 30⟩) (some ⟨11, 30⟩)).conflicts) ∧
    ¬ (slotInfo "monday" labSlot ∈
      (check_room_availability labDb "Lab1" (some "monday")
        (some ⟨11, 0⟩) (some ⟨12, 0⟩)).conflicts) :=
  ⟨(C1_window_conflict_iff labDb "Lab1" (some "monday") ⟨10, 30⟩ ⟨11, 30⟩
      { dayOfWeek := "monday", slots := [labSlot] } labSlot
      (by decide) (by decide) rfl).mpr (by decide),
   fun hmem =>
    absurd ((C1_window_conflict_iff labDb "Lab1" (some "monday") ⟨11, 0⟩ ⟨12, 0⟩
      { dayOfWeek := "monday", slots := [labSlot] } labSlot
      (by decide) (by decide) rfl).mp hmem) (by decide)⟩

theorem findDay_eq_none {d : String} {db : List DaySchedule} :
    findDay d db = none ↔ ∀ tt ∈ db, tt.dayOfWeek ≠ d := by
  induction db with
  | nil => simp [findDay]
  | cons hd rest ih =>
    by_cases hh : hd.dayOfWeek == d
    · simp [findDay, hh, eq_of_beq hh]
    · have hne : hd.dayOfWeek ≠ d := fun hc => hh (beq_iff_eq.mpr hc)
      simp [findDay, hh, ih, hne]

theorem skip_false_of_mem_scope {day : String} {dow : Option String}
    (h : day ∈ daysInScope dow) :
    (dow.any fun dd => !(day == pyLower dd)) = false := by
  cases dow with
  | none => rfl
  | some d =>
    simp only [daysInScope, List.mem_singleton] at h
    subst h
    simp [Option.any_some]

theorem dayFreeEntries_of_findDay_none {timetables : List DaySchedule}
    {dow faculty_id room : Option String} {day : String}
    (hskip : (dow.any fun dd => !(day == pyLower dd)) = false)
    (hfind : findDay day timetables = none) :
    dayFreeEntries timetables dow faculty_id room day =
      periodRange.map (fun p =>
        { dayOfWeek := day, period := p, startTime := freeTimeStr (8 + p),
          endTime := freeTimeStr (9 + p), status := "completely_free" }) := by
  unfold dayFreeEntries
  rw [hskip, hfind]
  rfl

theorem dayFreeEntries_of_findDay_some {timetables : List DaySchedule}
    {dow faculty_id room : Option String} {day : String} {tt : DaySchedule}
    (hskip : (dow.any fun dd => !(day == pyLower dd)) = false)
    (hfind : findDay day timetables = some tt) :
    dayFreeEntries timetables dow faculty_id room day =
      periodRange.filterMap (fun p =>
        if ((tt.slots.filter (slotOccupies faculty_id room)).map
            (·.period)).contains p then none
        else some { dayOfWeek := day, period := p,
                    startTime := freeTimeStr (8 + p),
                    endTime := freeTimeStr (9 + p), status := "free" }) := by
  unfold dayFreeEntries
  rw [hskip, hfind]
  rfl

theorem mem_dayFreeEntries_shape {timetables : List DaySchedule}
    {dow faculty_id room : Option String} {day : String} {fp : FreePeriod}
    (h : fp ∈ dayFreeEntries timetables dow faculty_id room day) :
    fp.dayOfWeek = day ∧ fp.period ∈ periodRange ∧
    fp.startTime = freeTimeStr (8 + fp.period) ∧
    fp.endTime = freeTimeStr (9 + fp.period) := by
  unfold dayFreeEntries at h
  by_cases hskip : (dow.any fun dd => !(day == pyLower dd)) = true
  · rw [if_pos hskip] at h
    cases h
  · rw [if_neg hskip] at h
    cases hfind : findDay day timetables with
    | none =>
      rw [hfind] at h
      rcases List.mem_map.mp h with ⟨p, hp, rfl⟩
      exact ⟨rfl, hp, rfl, rfl⟩
    | some tt =>
      rw [hfind] at h
      rcases List.mem_filterMap.mp h with ⟨p, hp, hsome⟩
      by_cases hocc : ((tt.slots.filter (slotOccupies faculty_id room)).map
          (·.period)).contains p = true
      · rw [if_pos hocc] at hsome
        cases hsome
      · rw [if_neg hocc] at hsome
        cases hsome
        exact ⟨rfl, hp, rfl, rfl⟩

/-- Counterexample for claim C5: with an empty collection and no filters
every examined day reports all eight periods free, yet no entry for
`"sunday"` exists while `"saturday"` does get entries — the scope of
`get_free_periods` without a day argument is six days, not seven. -/
theorem C5_counterexample :
    (∀ fp ∈ get_free_periods [] none none none, fp.dayOfWeek ≠ "sunday") ∧
    (∃ fp ∈ get_free_periods [] none none none,
      fp.dayOfWeek = "saturday") := by decide

/-- Claim C5 amended: when `get_free_periods` is called with no day
argument, the set of days it examines (and for which it can report free
periods) is the hard-coded six-day list monday through saturday — sunday
is never examined.  Every reported entry lies in that list, and each of
the six days genuinely is examined: a day with no stored schedule gets
every period reported. -/
theorem C5_amended_six_day_scope (db : List DaySchedule)
    (faculty_id room : Option String) :
    (∀ fp ∈ get_free_periods db none faculty_id room,
      fp.dayOfWeek ∈ allDays6) ∧
    (∀ day ∈ allDays6, (∀ tt ∈ db, tt.dayOfWeek ≠ day) →
      ∀ p ∈ periodRange,
        ∃ fp ∈ get_free_periods db none faculty_id room,
          fp.dayOfWeek = day ∧ fp.period = p) := by
  constructor
  · intro fp hfp
    rcases mem_get_free_periods.mp hfp with ⟨day, hday, hmem⟩
    have := (mem_dayFreeEntries_shape hmem).1
    rw [this]
    exact hday
  · intro day hday hnone p hp
    have hfindq : findDay day (freeQuery db none) = none := by
      rw [findDay_eq_none]
      intro tt htt
      exact hnone tt (List.mem_filter.mp htt).1
    refine ⟨{ dayOfWeek := day, period := p, startTime := freeTimeStr (8 + p),
              endTime := freeTimeStr (9 + p), status := "completely_free" },
      ?_, rfl, rfl⟩
    rw [mem_get_free_periods]
    refine ⟨day, hday, ?_⟩
    rw [dayFreeEntries_of_findDay_none (@skip_false_of_mem_scope day none hday) hfindq]
    exact List.mem_map.mpr ⟨p, hp, rfl⟩

/-- Witness for C5 at the empty collection: monday period 1 is reported. -/
theorem C5_witness :
    ∃ fp ∈ get_free_periods [] none none none,
      fp.dayOfWeek = "monday" ∧ fp.period = 1 :=
  (C5_amended_six_day_scope [] none none).2 "monday" (by decide)
    (fun tt htt => absurd htt (List.not_mem_nil tt)) 1 (by decide)

theorem slotOccupies_both (fid rm : String) (s : Slot) :
    slotOccupies (some fid) (some rm) s =
      (s.facultyId == some fid || s.room == some rm) := by
  unfold slotOccupies
  by_cases h1 : s.facultyId == some fid
  · simp [h1]
  · by_cases h2 : s.room == some rm
    · simp [h1, h2]
    · simp [h1, h2]

theorem occupied_contains_iff {slots : List Slot} {fid rm : String} {p : Int} :
    ((slots.filter (slotOccupies (some fid) (some rm))).map
        (·.period)).contains p = true ↔
      ∃ s ∈ slots, s.period = p ∧
        (s.facultyId = some fid ∨ s.room = some rm) := by
  rw [List.elem_iff]
  simp only [List.mem_map, List.mem_filter, slotOccupies_both,
    Bool.or_eq_true, beq_iff_eq]
  constructor
  · rintro ⟨s, ⟨hs, hmatch⟩, hp⟩
    exact ⟨s, hs, hp, hmatch⟩
  · rintro ⟨s, hs, hp, hmatch⟩
    exact ⟨s, ⟨hs, hmatch⟩, hp⟩

/-- Example slot for claim C6: monday period 1 taught by faculty F1 in
room R1. -/
def c6Slot : Slot :=
  { period := 1, startTime := ⟨9, 0⟩, endTime := ⟨10, 0⟩, type := "class",
    courseCode := none, facultyId := some "F1", room := some "R1" }

/-- The collection holding only `c6Slot` on monday. -/
def c6Db : List DaySchedule := [{ dayOfWeek := "monday", slots := [c6Slot] }]

/-- Counterexample for claim C6: querying free periods for monday with
faculty filter F2 and room filter R1, the stored slot matches only the
room filter (its faculty is F1, not F2), yet its period 1 is still marked
occupied — contradicting the claim that only `facultyId` matches count
when both filters are supplied. -/
theorem C6_counterexample :
    ((c6Slot.facultyId == some "F2") = false) ∧
    ∀ fp ∈ get_free_periods c6Db (some "monday") (some "F2") (some "R1"),
      fp.period ≠ 1 := by decide

/-- Claim C6 amended: when both a `facultyId` filter and a `room` filter
are supplied, a period of an existing day schedule is occupied iff some
slot at that period matches the faculty filter OR the room filter (the
per-slot `elif` chain gives union semantics, not faculty-only and not
intersection); the free periods are the rest of `range(1, 9)`. -/
theorem C6_amended_or_filter (db : List DaySchedule) (d fid rm : String)
    (tt : DaySchedule) (p : Int)
    (hfind : findDay (pyLower d) (freeQuery db (some d)) = some tt) :
    (∃ fp ∈ get_free_periods db (some d) (some fid) (some rm),
        fp.period = p) ↔
      (p ∈ periodRange ∧ ¬ ∃ s ∈ tt.slots, s.period = p ∧
        (s.facultyId = some fid ∨ s.room = some rm)) := by
  have hskip : ((some d).any fun dd => !(pyLower d == pyLower dd)) = false := by
    simp
  constructor
  · rintro ⟨fp, hfp, hp⟩
    rcases mem_get_free_periods.mp hfp with ⟨day, hday, hmem⟩
    simp only [daysInScope, List.mem_singleton] at hday
    subst hday
    rw [dayFreeEntries_of_findDay_some hskip hfind] at hmem
    rcases List.mem_filterMap.mp hmem with ⟨q, hq, hsome⟩
    by_cases hocc : ((tt.slots.filter (slotOccupies (some fid) (some rm))).map
        (·.period)).contains q = true
    · rw [if_pos hocc] at hsome
      cases hsome
    · rw [if_neg hocc] at hsome
      cases hsome
      simp only at hp
      subst hp
      exact ⟨hq, fun hex => hocc (occupied_contains_iff.mpr hex)⟩
  · rintro ⟨hp, hnone⟩
    have hocc : ((tt.slots.filter (slotOccupies (some fid) (some rm))).map
        (·.period)).contains p ≠ true :=
      fun h => hnone (occupied_contains_iff.mp h)
    refine ⟨{ dayOfWeek := pyLower d, period := p,
              startTime := freeTimeStr (8 + p),
              endTime := freeTimeStr (9 + p), status := "free" }, ?_, rfl⟩
    rw [mem_get_free_periods]
    refine ⟨pyLower d, by simp [daysInScope], ?_⟩
    rw [dayFreeEntries_of_findDay_some hskip hfind]
    exact List.mem_filterMap.mpr ⟨p, hp, by rw [if_neg hocc]⟩

/-- Witness for C6 at a concrete state: with faculty filter F1 and room
filter RX, the monday slot (faculty F1, room R1) matches the faculty
filter, so period 2 is still free while period 1 is occupied. -/
theorem C6_witness :
    ∃ fp ∈ get_free_periods c6Db (some "monday") (some "F1") (some "RX"),
      fp.period = 2 :=
  (C6_amended_or_filter c6Db "monday" "F1" "RX"
    { dayOfWeek := "monday", slots := [c6Slot] } 2 (by decide)).mpr (by decide)

/-- Claim C7: in `get_free_periods`, a day in scope with no stored
DaySchedule has every period of `range(1, 9)` reported free with status
`"completely_free"`; and every reported free period — from a missing or
an existing day — carries the derived placeholder times
`{period+8}:00` / `{period+9}:00`, never the recorded slot times. -/
theorem C7_placeholder_times_and_missing_day (db : List DaySchedule)
    (day_of_week faculty_id room : Option String) :
    (∀ day ∈ daysInScope day_of_week, (∀ tt ∈ db, tt.dayOfWeek ≠ day) →
      ∀ p ∈ periodRange,
        { dayOfWeek := day, period := p, startTime := freeTimeStr (8 + p),
          endTime := freeTimeStr (9 + p), status := "completely_free" } ∈
          get_free_periods db day_of_week faculty_id room) ∧
    (∀ fp ∈ get_free_periods db day_of_week faculty_id room,
      fp.startTime = freeTimeStr (8 + fp.period) ∧
      fp.endTime = freeTimeStr (9 + fp.period)) := by
  constructor
  · intro day hday hnone p hp
    have hfindq : findDay day (freeQuery db day_of_week) = none := by
      rw [findDay_eq_none]
      intro tt htt
      exact hnone tt (List.mem_filter.mp htt).1
    rw [mem_get_free_periods]
    refine ⟨day, hday, ?_⟩
    rw [dayFreeEntries_of_findDay_none (skip_false_of_mem_scope hday) hfindq]
    exact List.mem_map.mpr ⟨p, hp, rfl⟩
  · intro fp hfp
    rcases mem_get_free_periods.mp hfp with ⟨day, _, hmem⟩
    exact ⟨(mem_dayFreeEntries_shape hmem).2.2.1,
           (mem_dayFreeEntries_shape hmem).2.2.2⟩

/-- Witness for C7 at the empty collection: monday period 1 is reported
completely free with the placeholder times 9:00-10:00. -/
theorem C7_witness :
    { dayOfWeek := "monday", period := 1, startTime := freeTimeStr 9,
      endTime := freeTimeStr 10,
      status := "completely_free" } ∈ get_free_periods [] none none none :=
  (C7_placeholder_times_and_missing_day [] none none none).1 "monday"
    (by decide) (fun tt htt => absurd htt (List.not_mem_nil tt)) 1 (by decide)

theorem room_occupied_contains_iff {slots : List Slot} {room : String}
    {p : Int} :
    ((slots.filter (fun s => s.room == some room)).map
        (·.period)).contains p = true ↔
      ∃ s ∈ slots, s.room = some room ∧ s.period = p := by
  rw [List.elem_iff]
  simp only [List.mem_map, List.mem_filter, beq_iff_eq]
  constructor
  · rintro ⟨s, ⟨hs, hr⟩, hp⟩
    exact ⟨s, hs, hr, hp⟩
  · rintro ⟨s, hs, hr, hp⟩
    exact ⟨s, ⟨hs, hr⟩, hp⟩

theorem mem_dayAvailableEntries {timetables : List DaySchedule}
    {room : String} {dow : Option String} {day : String} {p : Int}
    (hskip : (dow.any fun d => !(day == pyLower d)) = false)
    (hocc : ∀ tt, findDay day timetables = some tt →
      ∀ s ∈ tt.slots, s.room = some room → s.period ≠ p)
    (hp : p ∈ periodRange) :
    { dayOfWeek := day, period := p, status := "available" } ∈
      dayAvailableEntries timetables room dow day := by
  unfold dayAvailableEntries
  rw [hskip]
  simp only [Bool.false_eq_true, if_false]
  refine List.mem_filterMap.mpr ⟨p, hp, ?_⟩
  rw [if_neg ?hc]
  case hc =>
    cases hfind : findDay day timetables with
    | none => simp
    | some tt =>
      intro hcont
      rcases room_occupied_contains_iff.mp hcont with ⟨s, hs, hr, hsp⟩
      exact hocc tt hfind s hs hr hsp

/-- Counterexample for claim C8: when both window bounds are supplied the
available-slot search is skipped entirely, so on an empty collection (no
slot binds room R1 at monday period 1) nothing is reported available —
the in-scope pair (monday, 1) is missing from `available_slots`. -/
theorem C8_counterexample :
    ¬ ({ dayOfWeek := "monday", period := 1, status := "available" } ∈
      (check_room_availability [] "R1" (some "monday")
        (some ⟨10, 0⟩) (some ⟨11, 0⟩)).available_slots) := by decide

/-- Claim C8 amended: the available-period search of
`check_room_availability` runs only when at least one window bound is
missing.  In that case, for each day of the hard-coded six-day list that
is not excluded by the day argument, every period of `range(1, 9)` not
bound to the queried room (in the first queried document for that day)
appears in `available_slots`; when both bounds are supplied,
`available_slots` is always empty. -/
theorem C8_amended_available_search (db : List DaySchedule) (room : String)
    (day_of_week : Option String) (start_time end_time : Option TimeHM) :
    ((start_time.isNone || end_time.isNone) = true →
      ∀ day ∈ allDays6,
        (day_of_week.any fun d => !(day == pyLower d)) = false →
        ∀ p ∈ periodRange,
        (∀ tt, findDay day (roomQuery db room day_of_week) = some tt →
          ∀ s ∈ tt.slots, s.room = some room → s.period ≠ p) →
        { dayOfWeek := day, period := p, status := "available" } ∈
          (check_room_availability db room day_of_week
            start_time end_time).available_slots) ∧
    (∀ cs ce, start_time = some cs → end_time = some ce →
      (check_room_availability db room day_of_week
        start_time end_time).available_slots = []) := by
  constructor
  · intro hwin day hday hskip p hp hocc
    unfold check_room_availability
    simp only [hwin, if_true]
    exact List.mem_flatMap.mpr ⟨day, hday, mem_dayAvailableEntries hskip hocc hp⟩
  · rintro cs ce rfl rfl
    unfold check_room_availability
    simp

/-- Witness for C8 with an open window (no bounds): on the empty
collection, monday period 1 is reported available for room R1. -/
theorem C8_witness :
    { dayOfWeek := "monday", period := 1, status := "available" } ∈
      (check_room_availability [] "R1" (some "monday")
        none none).available_slots :=
  (C8_amended_available_search [] "R1" (some "monday") none none).1 rfl
    "monday" (by decide) (by decide) 1 (by decide)
    (fun tt htt => absurd htt (by simp [roomQuery, findDay]))

/-- A well-formed faculty ObjectId used in the C4 scenario. -/
def c4Fid : String := "0123456789abcdef01234567"

/-- Thursday and friday each hold one slot taught by `c4Fid`. -/
def c4Db : List DaySchedule :=
  [{ dayOfWeek := "thursday",
     slots := [{ period := 1, startTime := ⟨9, 0⟩, endTime := ⟨10, 0⟩,
                 type := "class", courseCode := none,
                 facultyId := some c4Fid, room := none }] },
   { dayOfWeek := "friday",
     slots := [{ period := 2, startTime := ⟨11, 0⟩, endTime := ⟨12, 0⟩,
                 type := "class", courseCode := none,
                 facultyId := some c4Fid, room := none }] }]

/-- Counterexample for claim C4: a faculty teaching on thursday and friday
gets the schedule in the order friday, thursday — the `$sort` on the
`dayOfWeek` string is lexicographic, not weekday order (thursday precedes
friday in the week, but "friday" < "thursday" as strings). -/
theorem C4_counterexample :
    (get_faculty_schedule [c4Fid] c4Db c4Fid).map
        (fun l => l.map (·.dayOfWeek)) = .ok ["friday", "thursday"] ∧
    weekdayIndex "thursday" < weekdayIndex "friday" := by decide

/-- Claim C4 amended: for an existing faculty (well-formed id present in
the faculties collection), `get_faculty_schedule` returns one entry per
day that has at least one slot with that `facultyId`, ordered by the
day-name string lexicographically (the MongoDB `$sort` on `dayOfWeek`) —
not by weekday position — and each entry's slots are exactly the matching
slots of that day in stored array order. -/
theorem C4_amended_lexicographic_days (faculties : List String)
    (db : List DaySchedule) (faculty_id : String)
    (hv : validate_object_id faculty_id = true)
    (hex : faculties.contains faculty_id = true) :
    ∃ sched, get_faculty_schedule faculties db faculty_id = .ok sched ∧
      sched.Pairwise dayLeR ∧
      (∀ e ∈ sched, ∃ tt ∈ db, e.dayOfWeek = tt.dayOfWeek ∧
        e.slots = slotsForFaculty faculty_id tt.slots ∧ e.slots ≠ []) ∧
      (∀ tt ∈ db, slotsForFaculty faculty_id tt.slots ≠ [] →
        ∃ e ∈ sched, e.dayOfWeek = tt.dayOfWeek ∧
          e.slots = slotsForFaculty faculty_id tt.slots) := by
  refine ⟨List.insertionSort dayLeR
    (db.filterMap (fun tt =>
      let ms := slotsForFaculty faculty_id tt.slots
      if ms.isEmpty then none else some { tt with slots := ms })), ?_, ?_, ?_, ?_⟩
  · unfold get_faculty_schedule
    rw [hv, hex]
    rfl
  · exact List.sorted_insertionSort dayLeR _
  · intro e he
    rw [List.mem_insertionSort, List.mem_filterMap] at he
    rcases he with ⟨tt, htt, hsome⟩
    by_cases hemp : (slotsForFaculty faculty_id tt.slots).isEmpty
    · simp only [hemp, if_true] at hsome
      cases hsome
    · simp only [hemp, if_false] at hsome
      cases hsome
      refine ⟨tt, htt, rfl, rfl, fun hnil => hemp ?_⟩
      have h2 : slotsForFaculty faculty_id tt.slots = [] := hnil
      rw [h2]
      rfl
  · intro tt htt hne
    refine ⟨{ tt with slots := slotsForFaculty faculty_id tt.slots },
      ?_, rfl, rfl⟩
    rw [List.mem_insertionSort, List.mem_filterMap]
    refine ⟨tt, htt, ?_⟩
    have hemp : (slotsForFaculty faculty_id tt.slots).isEmpty = false := by
      cases hsl : slotsForFaculty faculty_id tt.slots with
      | nil => exact absurd hsl hne
      | cons a l => rfl
    simp only [hemp, Bool.false_eq_true, if_false]

/-- Witness for C4 (amended) on the thursday/friday scenario. -/
theorem C4_witness :
    ∃ sched, get_faculty_schedule [c4Fid] c4Db c4Fid = .ok sched ∧
      sched.Pairwise dayLeR ∧
      (∀ e ∈ sched, ∃ tt ∈ c4Db, e.dayOfWeek = tt.dayOfWeek ∧
        e.slots = slotsForFaculty c4Fid tt.slots ∧ e.slots ≠ []) ∧
      (∀ tt ∈ c4Db, slotsForFaculty c4Fid tt.slots ≠ [] →
        ∃ e ∈ sched, e.dayOfWeek = tt.dayOfWeek ∧
          e.slots = slotsForFaculty c4Fid tt.slots) :=
  C4_amended_lexicographic_days [c4Fid] c4Db c4Fid (by decide) (by decide)

/-- Monday already holds a period-1 slot 08:00-09:00 in room R0 (the
pre-existing duplicate-period slot for the C9 counterexample). -/
def c9OldSlot : Slot :=
  { period := 1, startTime := ⟨8, 0⟩, endTime := ⟨9, 0⟩, type := "class",
    courseCode := none, facultyId := none, room := some "R0" }

/-- The collection holding only `c9OldSlot` on monday. -/
def c9Db : List DaySchedule := [{ dayOfWeek := "monday", slots := [c9OldSlot] }]

/-- The create call of the C9 counterexample: a second period-1 slot. -/
def c9Create : Option TTError × List DaySchedule :=
  create_timetable_slot c9Db "monday" 1 ⟨9, 0⟩ ⟨10, 0⟩ "lab"
    (some "CS101") (some "F1") (some "R1")

/-- The room-only update immediately following `c9Create`. -/
def c9Update : Option TTError × List DaySchedule :=
  update_timetable_slot c9Create.2 "monday" 1 none none none none none
    (some "R2")

/-- Counterexample for claim C9: when the day already held a slot with the
same period, the room-only update patches the FIRST period-1 slot (the
pre-existing one), not the slot just created.  The snapshot then shows the
old slot's fields with the new room, and the created slot entirely
unchanged (room still R1) — no slot shows the created fields with only
the room replaced. -/
theorem C9_counterexample :
    c9Create.1 = none ∧ c9Update.1 = none ∧
    get_timetable_by_day c9Update.2 "monday" =
      .ok { dayOfWeek := "monday",
            slots := [{ period := 1, startTime := ⟨8, 0⟩, endTime := ⟨9, 0⟩,
                        type := "class", courseCode := none, facultyId := none,
                        room := some "R2" },
                      { period := 1, startTime := ⟨9, 0⟩, endTime := ⟨10, 0⟩,
                        type := "lab", courseCode := some "CS101",
                        facultyId := some "F1", room := some "R1" }] } ∧
    (∀ s ∈ [({ period := 1, startTime := ⟨8, 0⟩, endTime := ⟨9, 0⟩,
               type := "class", courseCode := none, facultyId := none,
               room := some "R2" } : Slot),
             { period := 1, startTime := ⟨9, 0⟩, endTime := ⟨10, 0⟩,
               type := "lab", courseCode := some "CS101",
               facultyId := some "F1", room := some "R1" }],
      ¬(s.startTime = ⟨9, 0⟩ ∧ s.room = some "R2")) := by decide

theorem update_room_only_success {db : List DaySchedule} {day : String}
    {period : Int} {dW : String} {sl : List Slot} {i : Nat} (rm2 : String)
    (hday : validate_day_of_week day = true)
    (hfd : findDay (pyLower day) db = some ⟨dW, sl⟩)
    (hidx : findSlotIdx period sl = some i) :
    update_timetable_slot db day period none none none none none (some rm2) =
      (none, updateFirstDay (pyLower day)
        (fun _ => ⟨dW, applyUpdateAt i
          (fun s => mergeSlot s none none none none none (some rm2)) sl⟩) db) := by
  unfold update_timetable_slot
  simp [hday, hfd, hidx]

/-- Claim C9 amended: provided no slot with the requested period already
exists on the day, `create_timetable_slot` followed by an
`update_timetable_slot` on the same (day, period) supplying only `room`
succeeds, and the day snapshot's slot at that period carries exactly the
created period, times, type, courseCode and facultyId, with only `room`
replaced.  (Without that precondition the update patches the first slot
holding the period — see the counterexample.) -/
theorem C9_amended_roundtrip (db : List DaySchedule) (day : String)
    (period : Int) (st et : TimeHM) (ty : String) (cc fid rm : Option String)
    (rm2 : String)
    (hday : validate_day_of_week day = true)
    (hst : validTime st = true) (het : validTime et = true)
    (hlt : TimeHM.ltB st et = true)
    (hfresh : ∀ tt ∈ db, tt.dayOfWeek = pyLower day →
      ∀ s ∈ tt.slots, s.period ≠ period) :
    (create_timetable_slot db day period st et ty cc fid rm).1 = none ∧
    (update_timetable_slot
        (create_timetable_slot db day period st et ty cc fid rm).2
        day period none none none none none (some rm2)).1 = none ∧
    ∃ tt, get_timetable_by_day
        (update_timetable_slot
          (create_timetable_slot db day period st et ty cc fid rm).2
          day period none none none none none (some rm2)).2 day = .ok tt ∧
      List.find? (fun s => s.period == period) tt.slots =
        some ⟨period, st, et, ty, cc, fid, some rm2⟩ := by
  cases hfd : findDay (pyLower day) db with
  | none =>
    have hc : create_timetable_slot db day period st et ty cc fid rm =
        (none, db ++ [⟨pyLower day,
          [(⟨period, st, et, ty, cc, fid, rm⟩ : Slot)]⟩]) := by
      unfold create_timetable_slot
      simp [hday, hst, het, hlt, hfd]
    have hc1 : (create_timetable_slot db day period st et ty cc fid rm).1 =
        none := by rw [hc]
    have hc2 : (create_timetable_slot db day period st et ty cc fid rm).2 =
        db ++ [(⟨pyLower day, [(⟨period, st, et, ty, cc, fid, rm⟩ : Slot)]⟩ : DaySchedule)] := by
      rw [hc]
    have hfd1 : findDay (pyLower day)
        (db ++ [(⟨pyLower day, [(⟨period, st, et, ty, cc, fid, rm⟩ : Slot)]⟩ : DaySchedule)]) =
        some ⟨pyLower day, [(⟨period, st, et, ty, cc, fid, rm⟩ : Slot)]⟩ := by
      rw [findDay_append, hfd]
      simp [findDay]
    have hidx1 : findSlotIdx period
        [(⟨period, st, et, ty, cc, fid, rm⟩ : Slot)] = some 0 := by
      simp [findSlotIdx]
    have hu := update_room_only_success rm2 hday hfd1 hidx1
    have hu1 : (update_timetable_slot
        (db ++ [(⟨pyLower day, [(⟨period, st, et, ty, cc, fid, rm⟩ : Slot)]⟩ : DaySchedule)])
        day period none none none none none (some rm2)).1 = none := by
      rw [hu]
    have hu2 : (update_timetable_slot
        (db ++ [(⟨pyLower day, [(⟨period, st, et, ty, cc, fid, rm⟩ : Slot)]⟩ : DaySchedule)])
        day period none none none none none (some rm2)).2 =
        updateFirstDay (pyLower day)
          (fun _ => ⟨pyLower day, applyUpdateAt 0
            (fun s => mergeSlot s none none none none none (some rm2))
            [(⟨period, st, et, ty, cc, fid, rm⟩ : Slot)]⟩)
          (db ++ [(⟨pyLower day,
            [(⟨period, st, et, ty, cc, fid, rm⟩ : Slot)]⟩ : DaySchedule)]) := by
      rw [hu]
    rw [hc2]
    refine ⟨hc1, hu1, ?_⟩
    rw [hu2]
    unfold get_timetable_by_day
    rw [findDay_updateFirstDay (pyLower day)
      (fun _ => ⟨pyLower day, applyUpdateAt 0
        (fun s => mergeSlot s none none none none none (some rm2))
        [(⟨period, st, et, ty, cc, fid, rm⟩ : Slot)]⟩)
      (db ++ [(⟨pyLower day, [(⟨period, st, et, ty, cc, fid, rm⟩ : Slot)]⟩ : DaySchedule)])
      (fun t h => rfl), hfd1]
    simp only [hday, Bool.not_true, Bool.false_eq_true, if_false,
      Option.map_some]
    refine ⟨_, rfl, ?_⟩
    simp [List.find?, applyUpdateAt, mergeSlot]
  | some tt0 =>
    have hmem := findDay_mem hfd
    have hfresh0 : ∀ s ∈ tt0.slots, s.period ≠ period :=
      hfresh tt0 hmem.1 hmem.2
    have hc : create_timetable_slot db day period st et ty cc fid rm =
        (none, updateFirstDay (pyLower day)
          (fun t => ⟨t.dayOfWeek,
            t.slots ++ [(⟨period, st, et, ty, cc, fid, rm⟩ : Slot)]⟩) db) := by
      unfold create_timetable_slot
      simp [hday, hst, het, hlt, hfd]
    have hc1 : (create_timetable_slot db day period st et ty cc fid rm).1 =
        none := by rw [hc]
    have hc2 : (create_timetable_slot db day period st et ty cc fid rm).2 =
        updateFirstDay (pyLower day)
          (fun t => ⟨t.dayOfWeek,
            t.slots ++ [(⟨period, st, et, ty, cc, fid, rm⟩ : Slot)]⟩) db := by
      rw [hc]
    have hfd1 : findDay (pyLower day)
        (updateFirstDay (pyLower day)
          (fun t => ⟨t.dayOfWeek,
            t.slots ++ [(⟨period, st, et, ty, cc, fid, rm⟩ : Slot)]⟩) db) =
        some ⟨tt0.dayOfWeek,
          tt0.slots ++ [(⟨period, st, et, ty, cc, fid, rm⟩ : Slot)]⟩ := by
      rw [findDay_updateFirstDay (pyLower day)
        (fun t => ⟨t.dayOfWeek,
          t.slots ++ [(⟨period, st, et, ty, cc, fid, rm⟩ : Slot)]⟩)
        db (fun t h => h), hfd]
      rfl
    have hidxn : findSlotIdx period tt0.slots = none :=
      findSlotIdx_eq_none.mpr hfresh0
    have hidx1 : findSlotIdx period (tt0.slots ++
        [(⟨period, st, et, ty, cc, fid, rm⟩ : Slot)]) =
        some tt0.slots.length := by
      rw [findSlotIdx_append_none hidxn]
      simp [findSlotIdx]
    have hu := update_room_only_success rm2 hday hfd1 hidx1
    have happ := applyUpdateAt_append tt0.slots
      ⟨period, st, et, ty, cc, fid, rm⟩
      (fun s => mergeSlot s none none none none none (some rm2))
    rw [happ] at hu
    have hu1 : (update_timetable_slot
        (updateFirstDay (pyLower day)
          (fun t => ⟨t.dayOfWeek,
            t.slots ++ [(⟨period, st, et, ty, cc, fid, rm⟩ : Slot)]⟩) db)
        day period none none none none none (some rm2)).1 = none := by
      rw [hu]
    have hu2 : (update_timetable_slot
        (updateFirstDay (pyLower day)
          (fun t => ⟨t.dayOfWeek,
            t.slots ++ [(⟨period, st, et, ty, cc, fid, rm⟩ : Slot)]⟩) db)
        day period none none none none none (some rm2)).2 =
        updateFirstDay (pyLower day)
          (fun _ => ⟨tt0.dayOfWeek, tt0.slots ++
            [mergeSlot (⟨period, st, et, ty, cc, fid, rm⟩ : Slot)
              none none none none none (some rm2)]⟩)
          (updateFirstDay (pyLower day)
            (fun t => ⟨t.dayOfWeek,
              t.slots ++ [(⟨period, st, et, ty, cc, fid, rm⟩ : Slot)]⟩) db) := by
      rw [hu]
    rw [hc2]
    refine ⟨hc1, hu1, ?_⟩
    rw [hu2]
    unfold get_timetable_by_day
    rw [findDay_updateFirstDay (pyLower day)
      (fun _ => ⟨tt0.dayOfWeek, tt0.slots ++
        [mergeSlot (⟨period, st, et, ty, cc, fid, rm⟩ : Slot)
          none none none none none (some rm2)]⟩)
      (updateFirstDay (pyLower day)
        (fun t => ⟨t.dayOfWeek,
          t.slots ++ [(⟨period, st, et, ty, cc, fid, rm⟩ : Slot)]⟩) db)
      (fun t h => hmem.2), hfd1]
    simp only [hday, Bool.not_true, Bool.false_eq_true, if_false,
      Option.map_some]
    refine ⟨_, rfl, ?_⟩
    rw [List.find?_append]
    have hn : List.find? (fun s => s.period == period) tt0.slots = none :=
      List.find?_eq_none.mpr (fun s hs => by
        simpa using hfresh0 s hs)
    rw [hn]
    simp [List.find?, mergeSlot]

/-- Witness for C9 (amended) from the empty collection. -/
theorem C9_witness :
    (create_timetable_slot [] "monday" 1 ⟨9, 0⟩ ⟨10, 0⟩ "class"
        (some "CS101") (some "F1") (some "R1")).1 = none ∧
    (update_timetable_slot
        (create_timetable_slot [] "monday" 1 ⟨9, 0⟩ ⟨10, 0⟩ "class"
          (some "CS101") (some "F1") (some "R1")).2
        "monday" 1 none none none none none (some "R2")).1 = none ∧
    ∃ tt, get_timetable_by_day
        (update_timetable_slot
          (create_timetable_slot [] "monday" 1 ⟨9, 0⟩ ⟨10, 0⟩ "class"
            (some "CS101") (some "F1") (some "R1")).2
          "monday" 1 none none none none none (some "R2")).2 "monday" = .ok tt ∧
      List.find? (fun s => s.period == 1) tt.slots =
        some { period := 1, startTime := ⟨9, 0⟩, endTime := ⟨10, 0⟩,
               type := "class", courseCode := some "CS101",
               facultyId := some "F1", room := some "R2" } :=
  C9_amended_roundtrip [] "monday" 1 ⟨9, 0⟩ ⟨10, 0⟩ "class"
    (some "CS101") (some "F1") (some "R1") "R2"
    (by decide) (by decide) (by decide) (by decide)
    (fun tt htt => absurd htt (List.not_mem_nil tt))
